import Mathlib

/-!
Verification of the DUID subsystem of the `spoofy` repository
(`src/unnamed/part_000`, a Node.js module).

Shallow embedding conventions:
* JS `Buffer`s are `List Nat` with every element `< 256` (stated as a
  hypothesis where it matters).
* JS strings are `List Char` (obtained from Lean string literals via
  `chars`).
* Fallible code (a JS `throw`) is `Option`/`none`.
* The file system is a map from path (a `List Char`) to an optional
  file `Content`.  Directory creation (`fs.mkdirSync`) has no observable
  effect in this model and is elided.
* Sources of nondeterminism (`Math.random`, `Date.now`, the stdout of
  shelled-out commands, which commands fail) are passed as explicit
  parameters / environment records, so every theorem quantifies over
  all of their outcomes.
-/

/-- The character list of a string literal (JS strings are modelled as
`List Char`). -/
def chars (s : String) : List Char := s.data

/-- Characters removed by `hexToDuid`'s `replace(/[:\s]/g, '')`:
a colon or JavaScript whitespace (space, tab, LF, CR, VT, FF). -/
def jsSep (c : Char) : Bool :=
  c == ':' || c == ' ' || c == '\t' || c == '\n' || c == '\r' ||
    c.toNat == 11 || c.toNat == 12

/-- JavaScript whitespace (used by `parseInt`'s leading trim). -/
def jsWs (c : Char) : Bool :=
  c == ' ' || c == '\t' || c == '\n' || c == '\r' ||
    c.toNat == 11 || c.toNat == 12

/-- The numeric value of a hex digit (case-insensitive), `none` for a
non-digit.  This is the digit handling shared by `Buffer.from(s, 'hex')`
and `parseInt(s, 16)`. -/
def hexDigitVal? (c : Char) : Option Nat :=
  if 48 ≤ c.toNat ∧ c.toNat ≤ 57 then some (c.toNat - 48)
  else if 97 ≤ c.toNat ∧ c.toNat ≤ 102 then some (c.toNat - 87)
  else if 65 ≤ c.toNat ∧ c.toNat ≤ 70 then some (c.toNat - 55)
  else none

/-- Whether a character is a hex digit. -/
def isHexChar (c : Char) : Bool := (hexDigitVal? c).isSome

/-- Lowercase hex digit for a value `< 16` (the digits produced by
JavaScript's `Number.prototype.toString(16)` and `Buffer.toString('hex')`).
The catch-all branch is never reached for in-range input. -/
def hexCharLower (n : Nat) : Char :=
  match n with
  | 0 => '0' | 1 => '1' | 2 => '2' | 3 => '3' | 4 => '4'
  | 5 => '5' | 6 => '6' | 7 => '7' | 8 => '8' | 9 => '9'
  | 10 => 'a' | 11 => 'b' | 12 => 'c' | 13 => 'd' | 14 => 'e'
  | 15 => 'f'
  | _ => '0'

/-- Two lowercase hex digits of one byte: `b.toString(16).padStart(2, '0')`
for `b < 256`, and one byte of `Buffer.toString('hex')`. -/
def byteToHexLower (b : Nat) : List Char :=
  [hexCharLower (b / 16), hexCharLower (b % 16)]

/-- `buf.toString('hex')`: the concatenated lowercase hex pairs. -/
def bytesToHexLower : List Nat → List Char
  | [] => []
  | b :: r => byteToHexLower b ++ bytesToHexLower r

/-- `String.prototype.toUpperCase` on one character (ASCII range; the
strings it is applied to in this module are pure ASCII hex). -/
def jsToUpper (c : Char) : Char :=
  if 97 ≤ c.toNat ∧ c.toNat ≤ 122 then Char.ofNat (c.toNat - 32) else c

/-- `duidToHex` (source line 130): `duid.toString('hex').toUpperCase()`. -/
def duidToHex (duid : List Nat) : List Char :=
  (bytesToHexLower duid).map jsToUpper

/-- `hex.replace(/[:\s]/g, '')`. -/
def stripSeps (l : List Char) : List Char := l.filter (fun c => !(jsSep c))

/-- `Buffer.from(s, 'hex')`: decodes two hex digits at a time and stops
(truncating, not throwing) at the first position where a full valid pair
is not available — a lone trailing digit or a non-hex character. -/
def hexPairsDecode : List Char → List Nat
  | c1 :: c2 :: rest =>
    match hexDigitVal? c1, hexDigitVal? c2 with
    | some h, some l => (16 * h + l) :: hexPairsDecode rest
    | _, _ => []
  | _ => []

/-- `hexToDuid` (source line 134):
`Buffer.from(hex.replace(/[:\s]/g, ''), 'hex')`. -/
def hexToDuid (hex : List Char) : List Nat := hexPairsDecode (stripSeps hex)

/-- Colon-joined lowercase hex, the shape produced by
`bytes.map(b => b.toString(16).padStart(2, '0')).join(':')` (used for the
`lladdr` field of `parseDUID` and by `generateRandomMAC`). -/
def colonHexLower (bs : List Nat) : List Char :=
  List.intercalate (chars ":") (bs.map byteToHexLower)

/-- `formatDUID` (source line 138):
`duid.toString('hex').match(/.{2}/g).join(':').toUpperCase()` — the
two-character groups of the hex string are exactly the per-byte pairs. -/
def formatDUID (duid : List Nat) : List Char :=
  (colonHexLower duid).map jsToUpper

-- Basic facts about the hex codec.

theorem hexDigitVal?_hexCharLower : ∀ n < 16, hexDigitVal? (hexCharLower n) = some n := by
  decide

theorem hexDigitVal?_upper_hexCharLower :
    ∀ n < 16, hexDigitVal? (jsToUpper (hexCharLower n)) = some n := by
  decide

theorem jsSep_upper_hexCharLower :
    ∀ n < 16, jsSep (jsToUpper (hexCharLower n)) = false := by
  decide

/-- Stripping separators from an upper-cased hex rendering is the
identity, byte by byte. -/
theorem stripSeps_duidToHex (bs : List Nat) (hb : ∀ b ∈ bs, b < 256) :
    stripSeps (duidToHex bs) = duidToHex bs := by
  induction bs with
  | nil => rfl
  | cons b r ih =>
    have hblt : b < 256 := hb b (by simp)
    have h1 := jsSep_upper_hexCharLower (b / 16) (Nat.div_lt_of_lt_mul (by omega))
    have h2 := jsSep_upper_hexCharLower (b % 16) (Nat.mod_lt _ (by omega))
    have ihr := ih (fun x hx => hb x (by simp [hx]))
    simp only [duidToHex, stripSeps] at ihr ⊢
    simp only [bytesToHexLower, byteToHexLower, List.map_cons, List.map_append,
      List.cons_append, List.nil_append]
    simp [List.filter_cons, h1, h2, ihr]

/-- Round trip of the byte-level hex codec: decoding the uppercase hex
rendering of a byte list recovers it. -/
theorem hexPairsDecode_duidToHex (bs : List Nat) (hb : ∀ b ∈ bs, b < 256) :
    hexPairsDecode (duidToHex bs) = bs := by
  induction bs with
  | nil => rfl
  | cons b r ih =>
    have hblt : b < 256 := hb b (by simp)
    have h1 := hexDigitVal?_upper_hexCharLower (b / 16) (Nat.div_lt_of_lt_mul (by omega))
    have h2 := hexDigitVal?_upper_hexCharLower (b % 16) (Nat.mod_lt _ (by omega))
    have ihr := ih (fun x hx => hb x (by simp [hx]))
    simp only [duidToHex] at ihr ⊢
    simp only [bytesToHexLower, byteToHexLower, List.map_cons, List.map_append,
      List.cons_append, List.nil_append]
    simp [hexPairsDecode, h1, h2, ihr]
    omega

/-- Two characters that differ at most in ASCII letter case: either they
are equal, or one is an ASCII uppercase letter and the other the
corresponding lowercase letter. -/
def caseEquiv (c1 c2 : Char) : Prop :=
  c1 = c2 ∨
    (c1.toNat = c2.toNat + 32 ∧ 65 ≤ c2.toNat ∧ c2.toNat ≤ 90) ∨
    (c2.toNat = c1.toNat + 32 ∧ 65 ≤ c1.toNat ∧ c1.toNat ≤ 90)

/-- A lowercase letter and its uppercase counterpart carry the same
hex-digit value. -/
theorem hexDigitVal?_case {c1 c2 : Char} (h : c1.toNat = c2.toNat + 32)
    (hlo : 65 ≤ c2.toNat) (hhi : c2.toNat ≤ 90) :
    hexDigitVal? c1 = hexDigitVal? c2 := by
  unfold hexDigitVal?
  split_ifs <;> first
    | rfl
    | (simp only [Option.some.injEq]; omega)
    | omega

/-- Hex-digit recognition is case-insensitive. -/
theorem hexDigitVal?_congr {c1 c2 : Char} (h : caseEquiv c1 c2) :
    hexDigitVal? c1 = hexDigitVal? c2 := by
  rcases h with h | ⟨h, hlo, hhi⟩ | ⟨h, hlo, hhi⟩
  · rw [h]
  · exact hexDigitVal?_case h hlo hhi
  · exact (hexDigitVal?_case h hlo hhi).symm

/-- `Buffer.from(·, 'hex')` yields the same bytes on inputs that differ
only in letter case. -/
theorem hexPairsDecode_congr :
    ∀ l1 l2 : List Char, List.Forall₂ caseEquiv l1 l2 →
      hexPairsDecode l1 = hexPairsDecode l2
  | [], _, h => by cases h; rfl
  | [c], _, h => by
    cases h with
    | cons hc ht => cases ht; rfl
  | c1 :: c2 :: r, _, h => by
    cases h with
    | cons h1 ht =>
      cases ht with
      | cons h2 hr =>
        have ih := hexPairsDecode_congr r _ hr
        simp only [hexPairsDecode, hexDigitVal?_congr h1, hexDigitVal?_congr h2, ih]

/-- An even-length run of hex digits. -/
def goodHexRun : List Char → Prop
  | [] => True
  | [_] => False
  | c1 :: c2 :: r => isHexChar c1 ∧ isHexChar c2 ∧ goodHexRun r

instance instDecGoodHexRun : ∀ l, Decidable (goodHexRun l)
  | [] => by unfold goodHexRun; infer_instance
  | [_] => by unfold goodHexRun; infer_instance
  | _ :: _ :: r =>
    have := instDecGoodHexRun r
    by unfold goodHexRun; infer_instance

/-- A tail at which pairwise hex decoding stops: it is empty, a lone
character, or starts with a pair containing a non-hex character. -/
def blockedTail : List Char → Prop
  | [] => True
  | [_] => True
  | c1 :: c2 :: _ => ¬(isHexChar c1 = true ∧ isHexChar c2 = true)

/-- Decoding a valid even run followed by a blocked tail yields exactly
the bytes of the valid run — the tail is silently dropped. -/
theorem hexPairsDecode_append :
    ∀ good tail : List Char, goodHexRun good → blockedTail tail →
      hexPairsDecode (good ++ tail) = hexPairsDecode good ∧
        2 * (hexPairsDecode good).length = good.length
  | [], tail, _, ht => by
    refine ⟨?_, rfl⟩
    simp only [List.nil_append]
    match tail, ht with
    | [], _ => rfl
    | [c], _ => rfl
    | c1 :: c2 :: r, ht =>
      cases hc1 : hexDigitVal? c1 <;> cases hc2 : hexDigitVal? c2 <;>
        simp_all [hexPairsDecode, isHexChar, blockedTail]
  | [c], _, hg, _ => absurd hg (by simp [goodHexRun])
  | c1 :: c2 :: r, tail, hg, ht => by
    obtain ⟨h1, h2, hr⟩ := hg
    obtain ⟨v1, hv1⟩ := Option.isSome_iff_exists.1 h1
    obtain ⟨v2, hv2⟩ := Option.isSome_iff_exists.1 h2
    have ih := hexPairsDecode_append r tail hr ht
    constructor
    · simp only [List.cons_append, hexPairsDecode, List.append_eq, hv1, hv2, ih.1]
    · simp only [hexPairsDecode, hv1, hv2, List.length_cons]
      omega

/-- `parseInt(s, 16)`: skip leading whitespace, allow a sign or a
`0x`/`0X` indicator, then read the longest run of hex digits; `none`
models `NaN` (no digits).  A `-` sign is also mapped to `none`: the only
consumer (`generateDUID`'s `writeUInt8`) throws on both `NaN` and
negative values, so both flow to the same failure. -/
def parseIntHex (s : List Char) : Option Nat :=
  let t := s.dropWhile jsWs
  let t := match t with
    | '+' :: r => r
    | '-' :: r => '!' :: r
    | r => r
  let t := match t with
    | '0' :: 'x' :: r => r
    | '0' :: 'X' :: r => r
    | r => r
  let digits := t.takeWhile isHexChar
  if digits.isEmpty then none
  else some (digits.foldl (fun acc c => 16 * acc + (hexDigitVal? c).getD 0) 0)

/-- `macAddr.split(':').map(h => parseInt(h, 16))` — the per-field parse
of a textual MAC address. -/
def macFields (mac : List Char) : List (Option Nat) :=
  (mac.splitOn ':').map parseIntHex

/-- `macBytes.forEach((b, i) => buf.writeUInt8(b, off + i))`: write the
values sequentially into `buf` starting at `off`.  `writeUInt8` throws
(→ `none`) on `NaN` (a `none` value), on a value outside `0..255`, and
on an offset beyond the buffer. -/
def writeBytesAt (buf : List Nat) (off : Nat) : List (Option Nat) → Option (List Nat)
  | [] => some buf
  | none :: _ => none
  | some b :: rest =>
    if b < 256 ∧ off < buf.length then writeBytesAt (buf.set off b) (off + 1) rest
    else none

/-- `buf.writeUInt16BE(n, ·)`: the two big-endian bytes of `n < 2^16`. -/
def be16 (n : Nat) : List Nat := [n / 256 % 256, n % 256]

/-- `buf.writeUInt32BE(n, ·)`: the four big-endian bytes of `n < 2^32`. -/
def be32 (n : Nat) : List Nat :=
  [n / 16777216 % 256, n / 65536 % 256, n / 256 % 256, n % 256]

/-- `generateDUID(type, mac)` (source line 70).

Explicit parameters stand for this call's nondeterminism:
* `mac` — the textual MAC address used (`mac || generateRandomMAC()`:
  either the caller's argument or the freshly generated random one);
* `time32` — the value `Math.floor(Date.now() / 1000 - 946684800)`
  (`writeUInt32BE` throws outside `0 ≤ · < 2^32`, hence the guard);
* `urand` — the 16 bytes `Math.floor(Math.random() * 256)` drawn in the
  UUID branch.

The LLT/LL buffers are built as the literal result of the sequence of
`writeUInt16BE`/`writeUInt32BE` calls on the zero-filled allocation,
followed by the per-byte MAC writes; `none` is a thrown exception
(unknown type, or a `writeUInt8`/`writeUInt32BE` range error). -/
def generateDUID (type : Nat) (mac : List Char) (time32 : Nat) (urand : List Nat) :
    Option (List Nat) :=
  match type with
  | 1 =>
    if time32 < 4294967296 then
      writeBytesAt (be16 1 ++ be16 1 ++ be32 time32 ++ List.replicate 6 0) 8 (macFields mac)
    else none
  | 2 =>
    some (be16 2 ++ be32 9 ++ hexPairsDecode (mac.filter (fun c => !(c == ':'))))
  | 3 =>
    writeBytesAt (be16 3 ++ be16 1 ++ List.replicate 6 0) 4 (macFields mac)
  | 4 =>
    (writeBytesAt (be16 4 ++ List.replicate 16 0) 2 (urand.map some)).map (fun b =>
      let b8 := (b.getD 8 0) &&& 15 ||| 64
      let b1 := b.set 8 b8
      let b10 := (b1.getD 10 0) &&& 63 ||| 128
      b1.set 10 b10)
  | _ => none

/-- `buf.readUInt16BE(off)` (callers guard the length). -/
def readUInt16BE (d : List Nat) (off : Nat) : Nat :=
  256 * d.getD off 0 + d.getD (off + 1) 0

/-- `buf.readUInt32BE(off)` (callers guard the length). -/
def readUInt32BE (d : List Nat) (off : Nat) : Nat :=
  16777216 * d.getD off 0 + 65536 * d.getD (off + 1) 0 +
    256 * d.getD (off + 2) 0 + d.getD (off + 3) 0

/-- The result object of `parseDUID`.  Fields the source sets only in
some branches are `Option`s (`none` = absent from the JS object).  In
the short-buffer case the source stores the *string* `'unknown'` in
`type` and the raw buffer in `raw`; here `type = none` models that
string, `rawBuf` the buffer, and `rawStr` the formatted string of the
normal path.  The derived `timeDate` (a JS `Date` wrapping `time`) is
not modelled. -/
structure ParsedDUID where
  type : Option Nat := none
  typeName : List Char := []
  rawBuf : Option (List Nat) := none
  rawStr : Option (List Char) := none
  hwType : Option Nat := none
  time : Option Nat := none
  lladdr : Option (List Char) := none
  enterpriseNumber : Option Nat := none
  identifier : Option (List Char) := none
  uuid : Option (List Char) := none
deriving DecidableEq

/-- The `typeName` lookup over `DUID_TYPES`. -/
def duidTypeName (t : Nat) : List Char :=
  match t with
  | 1 => chars "DUID_LLT"
  | 2 => chars "DUID_EN"
  | 3 => chars "DUID_LL"
  | 4 => chars "DUID_UUID"
  | _ => chars "unknown"

/-- The UUID display string: hex of slices 0-4, 4-6, 6-8, 8-10, 10-16
joined with dashes. -/
def uuidFormat (u : List Nat) : List Char :=
  bytesToHexLower (u.take 4) ++ chars "-" ++
    bytesToHexLower ((u.drop 4).take 2) ++ chars "-" ++
    bytesToHexLower ((u.drop 6).take 2) ++ chars "-" ++
    bytesToHexLower ((u.drop 8).take 2) ++ chars "-" ++
    bytesToHexLower ((u.drop 10).take 6)

/-- `parseDUID(duid)` (source line 1006). -/
def parseDUID (d : List Nat) : ParsedDUID :=
  if d.length < 2 then
    { typeName := chars "unknown", rawBuf := some d }
  else
    let t := readUInt16BE d 0
    let base : ParsedDUID :=
      { type := some t, typeName := duidTypeName t, rawStr := some (formatDUID d) }
    if t = 1 then
      if 14 ≤ d.length then
        { base with
          hwType := some (readUInt16BE d 2)
          time := some (readUInt32BE d 4)
          lladdr := some (colonHexLower ((d.drop 8).take 6)) }
      else base
    else if t = 2 then
      if 6 ≤ d.length then
        { base with
          enterpriseNumber := some (readUInt32BE d 2)
          identifier := some (bytesToHexLower (d.drop 6)) }
      else base
    else if t = 3 then
      if 10 ≤ d.length then
        { base with
          hwType := some (readUInt16BE d 2)
          lladdr := some (colonHexLower ((d.drop 4).take 6)) }
      else base
    else if t = 4 then
      if 18 ≤ d.length then
        { base with uuid := some (uuidFormat ((d.drop 2).take 16)) }
      else base
    else base

-- Facts about the sequential byte writes of `generateDUID`.

theorem set_append_len (pre rest : List Nat) (v : Nat) :
    (pre ++ rest).set pre.length v = pre ++ rest.set 0 v := by
  induction pre with
  | nil => rfl
  | cons x p ih => simp [List.set, ih]

/-- Writing `vals` over the zero-filled tail of a buffer replaces that
tail, provided every value is a byte. -/
theorem writeBytesAt_exact :
    ∀ (vals pre : List Nat), (∀ v ∈ vals, v < 256) →
      writeBytesAt (pre ++ List.replicate vals.length 0) pre.length (vals.map some) =
        some (pre ++ vals)
  | [], pre, _ => by simp [writeBytesAt]
  | v :: r, pre, hv => by
    have hvlt : v < 256 := hv v (by simp)
    have ih := writeBytesAt_exact r (pre ++ [v]) (fun x hx => hv x (by simp [hx]))
    simp only [List.replicate, List.map_cons, writeBytesAt]
    rw [if_pos]
    · have hset : (pre ++ 0 :: List.replicate r.length 0).set pre.length v =
          (pre ++ [v]) ++ List.replicate r.length 0 := by
        rw [set_append_len]
        simp
      rw [hset]
      have hlen : pre.length + 1 = (pre ++ [v]).length := by simp
      rw [hlen, ih]
      simp
    · constructor
      · exact hvlt
      · simp
      
theorem writeBytesAt_length :
    ∀ (vals : List (Option Nat)) (buf out : List Nat) (off : Nat),
      writeBytesAt buf off vals = some out → out.length = buf.length
  | [], buf, out, off, h => by
    simp [writeBytesAt] at h
    rw [← h]
  | none :: r, buf, out, off, h => by simp [writeBytesAt] at h
  | some v :: r, buf, out, off, h => by
    simp only [writeBytesAt] at h
    split_ifs at h
    have := writeBytesAt_length r _ out (off + 1) h
    simpa using this

theorem mem_set_cases :
    ∀ (l : List Nat) (i v x : Nat), x ∈ l.set i v → x ∈ l ∨ x = v
  | [], i, v, x, h => by simp at h
  | a :: l, 0, v, x, h => by
    rcases List.mem_cons.1 h with h | h
    · right; exact h
    · left; exact List.mem_cons_of_mem _ h
  | a :: l, i + 1, v, x, h => by
    rcases List.mem_cons.1 h with h | h
    · left; simp [h]
    · rcases mem_set_cases l i v x h with h | h
      · left; exact List.mem_cons_of_mem _ h
      · right; exact h

/-- Sequential byte writes keep every buffer element below 256. -/
theorem writeBytesAt_bound :
    ∀ (vals : List (Option Nat)) (buf out : List Nat) (off : Nat),
      (∀ b ∈ buf, b < 256) → writeBytesAt buf off vals = some out →
      ∀ b ∈ out, b < 256
  | [], buf, out, off, hb, h => by
    simp [writeBytesAt] at h
    rw [← h]; exact hb
  | none :: r, buf, out, off, hb, h => by simp [writeBytesAt] at h
  | some v :: r, buf, out, off, hb, h => by
    simp only [writeBytesAt] at h
    split_ifs at h with hc
    refine writeBytesAt_bound r _ out (off + 1) ?_ h
    intro b hbm
    rcases mem_set_cases _ _ _ _ hbm with hm | hm
    · exact hb b hm
    · omega

theorem getD_set_self :
    ∀ (l : List Nat) (i v : Nat), i < l.length → (l.set i v).getD i 0 = v
  | [], i, v, h => by simp at h
  | a :: l, 0, v, _ => rfl
  | a :: l, i + 1, v, h => by
    simp only [List.set, List.getD_cons_succ]
    exact getD_set_self l i v (by simpa using h)

theorem getD_set_other :
    ∀ (l : List Nat) (i j v : Nat), i ≠ j → (l.set i v).getD j 0 = l.getD j 0
  | [], i, j, v, _ => by simp
  | a :: l, 0, 0, v, h => absurd rfl h
  | a :: l, 0, j + 1, v, _ => rfl
  | a :: l, i + 1, 0, v, _ => rfl
  | a :: l, i + 1, j + 1, v, h => by
    simp only [List.set, List.getD_cons_succ]
    exact getD_set_other l i j v (by omega)

theorem getD_mem :
    ∀ (l : List Nat) (i : Nat), i < l.length → l.getD i 0 ∈ l
  | [], i, h => by simp at h
  | a :: l, 0, _ => by simp
  | a :: l, i + 1, h => by
    simp only [List.getD_cons_succ]
    exact List.mem_cons_of_mem _ (getD_mem l i (by simpa using h))

-- Evaluating `generateDUID` branch by branch.

/-- The LLT branch: with a MAC whose six fields parse to the bytes `bs`,
the generated buffer is type·hwType·time·bs. -/
theorem generateDUID_llt_eq (mac : List Char) (bs : List Nat) (time32 : Nat)
    (urand : List Nat) (hm : macFields mac = bs.map some) (hlen : bs.length = 6)
    (hb : ∀ v ∈ bs, v < 256) (ht : time32 < 4294967296) :
    generateDUID 1 mac time32 urand = some ([0, 1, 0, 1] ++ be32 time32 ++ bs) := by
  have h := writeBytesAt_exact bs ([0, 1, 0, 1] ++ be32 time32) hb
  rw [hlen] at h
  have hoff : ([0, 1, 0, 1] ++ be32 time32).length = 8 := by simp [be32]
  rw [hoff] at h
  simp only [generateDUID, if_pos ht, hm]
  have hbuf : be16 1 ++ be16 1 ++ be32 time32 ++ List.replicate 6 0 =
      ([0, 1, 0, 1] ++ be32 time32) ++ List.replicate 6 0 := by
    simp [be16]
  rw [hbuf, h]

/-- The LL branch. -/
theorem generateDUID_ll_eq (mac : List Char) (bs : List Nat) (time32 : Nat)
    (urand : List Nat) (hm : macFields mac = bs.map some) (hlen : bs.length = 6)
    (hb : ∀ v ∈ bs, v < 256) :
    generateDUID 3 mac time32 urand = some ([0, 3, 0, 1] ++ bs) := by
  have h := writeBytesAt_exact bs [0, 3, 0, 1] hb
  rw [hlen] at h
  have hoff : ([0, 3, 0, 1] : List Nat).length = 4 := rfl
  rw [hoff] at h
  simp only [generateDUID, hm]
  have hbuf : be16 3 ++ be16 1 ++ List.replicate 6 0 =
      ([0, 3, 0, 1] : List Nat) ++ List.replicate 6 0 := by
    simp [be16]
  rw [hbuf, h]

/-- The EN branch: fixed enterprise number 9 and the hex-decoded
(colon-stripped) MAC text as identifier. -/
theorem generateDUID_en_eq (mac : List Char) (time32 : Nat) (urand : List Nat) :
    generateDUID 2 mac time32 urand =
      some ([0, 2, 0, 0, 0, 9] ++ hexPairsDecode (mac.filter (fun c => !(c == ':')))) := by
  simp [generateDUID, be16, be32]

/-- The UUID branch succeeds whenever the sixteen random bytes are
in range, and the result is the two type bytes followed by the random
bytes with the version/variant bytes overwritten. -/
theorem generateDUID_uuid_eq (mac : List Char) (time32 : Nat) (urand : List Nat)
    (hu : urand.length = 16) (hub : ∀ v ∈ urand, v < 256) :
    generateDUID 4 mac time32 urand =
      some ((([0, 4] ++ urand).set 8 (([0, 4] ++ urand).getD 8 0 &&& 15 ||| 64)).set 10
        ((([0, 4] ++ urand).set 8 (([0, 4] ++ urand).getD 8 0 &&& 15 ||| 64)).getD 10 0
          &&& 63 ||| 128)) := by
  have h := writeBytesAt_exact urand [0, 4] hub
  rw [hu] at h
  have hoff : ([0, 4] : List Nat).length = 2 := rfl
  rw [hoff] at h
  simp only [generateDUID]
  have hbuf : be16 4 ++ List.replicate 16 0 =
      ([0, 4] : List Nat) ++ List.replicate 16 0 := by
    simp [be16]
  rw [hbuf, h]
  rfl

-- Evaluating `parseDUID` on generated buffers.

/-- Parsing a 14-byte type-1 buffer recovers type and link-layer
address. -/
theorem parseDUID_llt_fields (a b c e : Nat) (bs : List Nat) (hlen : bs.length = 6) :
    (parseDUID (0 :: 1 :: 0 :: 1 :: a :: b :: c :: e :: bs)).type = some 1 ∧
      (parseDUID (0 :: 1 :: 0 :: 1 :: a :: b :: c :: e :: bs)).lladdr =
        some (colonHexLower bs) := by
  have hL : (0 :: 1 :: 0 :: 1 :: a :: b :: c :: e :: bs).length = 14 := by simp [hlen]
  have ht : readUInt16BE (0 :: 1 :: 0 :: 1 :: a :: b :: c :: e :: bs) 0 = 1 := rfl
  have hdrop : List.drop 8 (0 :: 1 :: 0 :: 1 :: a :: b :: c :: e :: bs) = bs := rfl
  have htake : bs.take 6 = bs := List.take_of_length_le (by omega)
  simp only [parseDUID, hL, ht, hdrop, htake]
  norm_num

/-- Parsing a 10-byte type-3 buffer recovers type and link-layer
address. -/
theorem parseDUID_ll_fields (bs : List Nat) (hlen : bs.length = 6) :
    (parseDUID (0 :: 3 :: 0 :: 1 :: bs)).type = some 3 ∧
      (parseDUID (0 :: 3 :: 0 :: 1 :: bs)).lladdr = some (colonHexLower bs) := by
  have hL : (0 :: 3 :: 0 :: 1 :: bs).length = 10 := by simp [hlen]
  have ht : readUInt16BE (0 :: 3 :: 0 :: 1 :: bs) 0 = 3 := rfl
  have hdrop : List.drop 4 (0 :: 3 :: 0 :: 1 :: bs) = bs := rfl
  have htake : bs.take 6 = bs := List.take_of_length_le (by omega)
  simp only [parseDUID, hL, ht, hdrop, htake]
  norm_num

/-- Parsing a type-2 buffer reports type 2 (any identifier tail). -/
theorem parseDUID_en_type (ident : List Nat) :
    (parseDUID (0 :: 2 :: 0 :: 0 :: 0 :: 9 :: ident)).type = some 2 := by
  have hL : (0 :: 2 :: 0 :: 0 :: 0 :: 9 :: ident).length = 6 + ident.length := by
    simp only [List.length_cons]
    omega
  have ht : readUInt16BE (0 :: 2 :: 0 :: 0 :: 0 :: 9 :: ident) 0 = 2 := rfl
  simp only [parseDUID, hL, ht]
  rw [if_neg (by omega)]
  norm_num

-- The version/variant bit masks of the UUID branch.

set_option maxRecDepth 4000 in
theorem uuidVersionMask : ∀ x < 256, (x &&& 15 ||| 64) &&& 240 = 64 := by decide

set_option maxRecDepth 4000 in
theorem uuidVariantMask : ∀ x < 256, (x &&& 63 ||| 128) &&& 192 = 128 := by decide

-- ---------------------------------------------------------------------------
-- The Original-Value Store and the platform adapters.
-- ---------------------------------------------------------------------------

/-- The metadata record written by `storeOriginalDUID` (source line 185). -/
structure Metadata where
  duidHex : List Char
  storedAt : List Char
  platformName : List Char
  hostName : List Char
deriving DecidableEq

/-- A file's content, modelled algebraically: `structured m` stands for
the `JSON.stringify` serialization of the metadata record `m` (which
`JSON.parse` recovers); `rawBytes`/`textFile` stand for content that
does not parse as the structured record (the legacy / free-form cases).
-/
inductive Content where
  | structured (m : Metadata)
  | rawBytes (b : List Nat)
  | textFile (s : List Char)
deriving DecidableEq

/-- The file system: path → content of the file there, if any. -/
def FS : Type := List Char → Option Content

/-- `fs.writeFileSync`. -/
def fsWrite (fs : FS) (p : List Char) (c : Content) : FS :=
  fun q => if q = p then some c else fs q

/-- `fs.unlinkSync` / `rm -f <exact path>`. -/
def fsRemove (fs : FS) (p : List Char) : FS :=
  fun q => if q = p then none else fs q

/-- `rm -f <dir>/<stem>*`: the shell glob removes every file in the
same directory whose name starts with the stem — every path with the
given prefix whose remainder contains no further `/`. -/
def rmGlobStar (fs : FS) (pre : List Char) : FS :=
  fun q =>
    if pre.isPrefixOf q ∧ ¬(List.drop pre.length q).contains '/' then none
    else fs q

/-- `rm -rf <dir>/*`: removes everything under the directory. -/
def rmUnder (fs : FS) (pre : List Char) : FS :=
  fun q => if pre.isPrefixOf q then none else fs q

/-- The JSON text `JSON.stringify(metadata, null, 2)` written by
`storeOriginalDUID`. -/
def metaJson (m : Metadata) : List Char :=
  chars "\x7b\n  \"duid\": \"" ++ m.duidHex ++
    chars "\",\n  \"storedAt\": \"" ++ m.storedAt ++
    chars "\",\n  \"platform\": \"" ++ m.platformName ++
    chars "\",\n  \"hostname\": \"" ++ m.hostName ++
    chars "\"\n\x7d"

/-- The bytes `fs.readFileSync` yields for a file content. -/
def contentBytes : Content → List Nat
  | Content.structured m => (metaJson m).map Char.toNat
  | Content.rawBytes b => b
  | Content.textFile s => s.map Char.toNat

/-- Per-call ambient values used when writing the metadata record:
`new Date().toISOString()`, `platform`, `os.hostname()`. -/
structure CommonEnv where
  now : List Char
  platformName : List Char
  hostName : List Char

/-- `storeOriginalDUID(duid)` (source line 185), with the canonical
path passed explicitly (= `getOriginalDUIDPath()`).  Write-once: an
existing record is left untouched and `false` returned; otherwise the
metadata record (with `duid.toString('hex')`) is written and `true`
returned. -/
def storeOriginalDUID (origPath : List Char) (e : CommonEnv) (fs : FS)
    (duid : List Nat) : Bool × FS :=
  if (fs origPath).isSome then (false, fs)
  else
    (true, fsWrite fs origPath
      (Content.structured ⟨bytesToHexLower duid, e.now, e.platformName, e.hostName⟩))

/-- `getOriginalDUID()` (source line 208): absent file → `none`;
structured record → `Buffer.from(metadata.duid, 'hex')`; anything else →
the file's raw bytes (legacy fallback after `JSON.parse` fails). -/
def getOriginalDUID (origPath : List Char) (fs : FS) : Option (List Nat) :=
  match fs origPath with
  | none => none
  | some (Content.structured m) => some (hexPairsDecode m.duidHex)
  | some (Content.rawBytes b) => some b
  | some (Content.textFile s) => some (s.map Char.toNat)

/-- `hasOriginalDUID()` (source line 233). -/
def hasOriginalDUID (origPath : List Char) (fs : FS) : Bool :=
  (fs origPath).isSome

/-- The three outcomes of `restoreDUID`: the source returns `true`,
`false` (no original stored) or the string `'not_spoofed'`. -/
inductive RestoreResult where
  | restored
  | notSpoofed
  | noOriginal
deriving DecidableEq

-- macOS adapter (source lines 253-424).

/-- `macos.DUID_PATH`. -/
def macDuidPath : List Char := chars "/var/db/dhcpclient/DUID"

/-- `getOriginalDUIDPath()` on darwin (source line 158). -/
def macOriginalPath : List Char := chars "/var/db/dhcpclient/DUID.original"

/-- The leases directory cleared by set/restore. -/
def macLeasesDir : List Char := chars "/var/db/dhcpclient/leases/"

/-- Outcomes of the external `networksetup` / `defaults` invocations on
this host. -/
structure MacEnv where
  /-- Trimmed stdout of `defaults read /var/db/dhcpclient/DUID` (the
  `|| true` suffix prevents a command failure). -/
  defaultsOut : List Char
  /-- Whether `networksetup -setv6off <name>` throws for a name. -/
  v6offFails : List Char → Bool
  /-- Whether `networksetup -setv6automatic <name>` throws for a name. -/
  v6autoFails : List Char → Bool
  /-- `getHardwarePort(device)`: resolved hardware-port name, `null` on
  no match or command failure (that helper swallows its own errors). -/
  hardwarePort : List Char → Option (List Char)

/-- The IPv6-toggle pattern of `macos.setDUID`/`restoreDUID`: the first
`networksetup` call is inside `try`; its `catch` resolves the hardware
port and—if one resolved—invokes `networksetup` again *outside* any
`try`, so a failure of that second call propagates (`none`). -/
def macosTryV6 (fails : List Char → Bool) (hp : List Char → Option (List Char)) :
    Option (List Char) → Option Unit
  | none => some ()
  | some i =>
    if fails i then
      match hp i with
      | some hw => if fails hw then none else some ()
      | none => some ()
    else some ()

/-- `macos.getCurrentDUID()` (source line 256): the DUID file's bytes if
it exists, else the `defaults read` fallback parsed as hex text, else
`null`. -/
def macosGetCurrentDUID (env : MacEnv) (fs : FS) : Option (List Nat) :=
  match fs macDuidPath with
  | some c => some (contentBytes c)
  | none =>
    if env.defaultsOut.isEmpty then none else some (hexToDuid env.defaultsOut)

/-- `macos.backupOriginal()` (source line 274): read current; if present
delegate to the write-once store and return `true`, else `false`. -/
def macosBackupOriginal (env : MacEnv) (e : CommonEnv) (fs : FS) : Bool × FS :=
  match macosGetCurrentDUID env fs with
  | some cur => (true, (storeOriginalDUID macOriginalPath e fs cur).2)
  | none => (false, fs)

/-- `macos.setDUID(duid, iface)` (source line 286): backup, optional
IPv6-off, `rm -f /var/db/dhcpclient/DUID*` and clear leases (failures
swallowed), write the new DUID, optional IPv6-on.  Note the `DUID*`
glob also matches `DUID.original`. -/
def macosSetDUID (env : MacEnv) (e : CommonEnv) (fs : FS) (duid : List Nat)
    (iface : Option (List Char)) : Option FS :=
  let fs1 := (macosBackupOriginal env e fs).2
  match macosTryV6 env.v6offFails env.hardwarePort iface with
  | none => none
  | some _ =>
    let fs2 := rmGlobStar fs1 macDuidPath
    let fs3 := rmUnder fs2 macLeasesDir
    let fs4 := fsWrite fs3 macDuidPath (Content.rawBytes duid)
    match macosTryV6 env.v6autoFails env.hardwarePort iface with
    | none => none
    | some _ => some fs4

/-- The write phase of `macos.restoreDUID` (source lines 342-374):
IPv6-off, `rm -f /var/db/dhcpclient/DUID` (no glob) and clear leases,
write the original back, IPv6-on. -/
def macosRestoreWrite (env : MacEnv) (fs : FS) (orig : List Nat)
    (iface : Option (List Char)) : Option (RestoreResult × FS) :=
  match macosTryV6 env.v6offFails env.hardwarePort iface with
  | none => none
  | some _ =>
    let fs1 := fsRemove fs macDuidPath
    let fs2 := rmUnder fs1 macLeasesDir
    let fs3 := fsWrite fs2 macDuidPath (Content.rawBytes orig)
    match macosTryV6 env.v6autoFails env.hardwarePort iface with
    | none => none
    | some _ => some (RestoreResult.restored, fs3)

/-- `macos.restoreDUID(iface)` (source line 328). -/
def macosRestoreDUID (env : MacEnv) (fs : FS) (iface : Option (List Char)) :
    Option (RestoreResult × FS) :=
  match getOriginalDUID macOriginalPath fs with
  | none => some (RestoreResult.noOriginal, fs)
  | some orig =>
    match macosGetCurrentDUID env fs with
    | some cur =>
      if cur = orig then some (RestoreResult.notSpoofed, fs)
      else macosRestoreWrite env fs orig iface
    | none => macosRestoreWrite env fs orig iface

/-- `macos.resetDUID(iface)` (source line 381): both IPv6 toggles are
fully wrapped in `try { } catch (e) {}` here, and the only file-system
effect is `rm -f /var/db/dhcpclient/DUID` — the exact path, explicitly
sparing the `.original` backup. -/
def macosResetDUID (env : MacEnv) (fs : FS) (iface : Option (List Char)) : FS :=
  fsRemove fs macDuidPath

-- Linux adapter (source lines 430-768; only the parts the claims need).

/-- The result of `linux.detectDHCPClient()`. -/
inductive DHCPClient where
  | systemd
  | dhclient
  | networkmanager
  | unknownClient
deriving DecidableEq

/-- `linux.SYSTEMD_DUID_PATH ++ '/00-duid.conf'`. -/
def systemdConfPath : List Char := chars "/etc/systemd/network/00-duid.conf"

/-- The per-interface network file `${SYSTEMD_DUID_PATH}/${iface}.network`. -/
def systemdNetworkPath (iface : List Char) : List Char :=
  chars "/etc/systemd/network/" ++ iface ++ chars ".network"

/-- `linux.DHCLIENT_CONF`. -/
def dhclientConfPath : List Char := chars "/etc/dhcp/dhclient6.conf"

/-- The text `fs.readFileSync(path, 'utf8')` yields for a content
(for byte contents, the per-byte decoding of the buffer). -/
def contentText : Content → List Char
  | Content.structured m => metaJson m
  | Content.rawBytes b => b.map Char.ofNat
  | Content.textFile s => s

/-- The `content.replace(/send\s+dhcp6\.client-id\s+[^;]+;/g, '')`
clean-up of `dhclient6.conf`, modelled at line granularity: lines
mentioning `dhcp6.client-id` are removed.  (No claim observes the
resulting text; only that the file at this path is rewritten.) -/
def stripClientId (l : List Char) : List Char :=
  List.intercalate (chars "\n")
    ((l.splitOn '\n').filter (fun line => !(decide (chars "dhcp6.client-id" <:+: line))))

/-- `linux.resetDUID(iface)` (source line 716): per detected client,
remove the systemd drop-ins / rewrite `dhclient6.conf` without the
client-id line / point NetworkManager back at its default via `nmcli`
(no file touched).  Service restarts and all `nmcli`/`dhclient` errors
are caught; the unknown-client case falls through and returns. -/
def linuxResetDUID (client : DHCPClient) (fs : FS) (iface : Option (List Char)) : FS :=
  match client with
  | DHCPClient.systemd =>
    let fs1 := fsRemove fs systemdConfPath
    match iface with
    | some i => fsRemove fs1 (systemdNetworkPath i)
    | none => fs1
  | DHCPClient.dhclient =>
    match fs dhclientConfPath with
    | some c => fsWrite fs dhclientConfPath (Content.textFile (stripClientId (contentText c)))
    | none => fs
  | DHCPClient.networkmanager => fs
  | DHCPClient.unknownClient => fs

-- Windows adapter (source lines 775-933).

/-- Outcomes of the external `reg`/`netsh`/`powershell` invocations.
The `netsh` and PowerShell IPv6 toggles are wrapped in nested
`try`/`catch` with an empty innermost handler, so their failures cannot
influence the result or state; their outcome flags are recorded here
but (faithfully) never read. -/
structure WinEnv where
  regAddFails : Bool
  regDeleteFails : Bool
  netshFails : Bool
  powershellFails : Bool

/-- Windows state: the file system (for the Original-Value Store) plus
the `Dhcpv6DUID` registry value (the active DUID). -/
structure WinState where
  fs : FS
  registry : Option (List Nat)

/-- `windows.getCurrentDUID()` (source line 781): query the registry
value (its `REG_BINARY` hex round-trips to the stored bytes). -/
def windowsGetCurrentDUID (st : WinState) : Option (List Nat) := st.registry

/-- `windows.backupOriginal()` (source line 800). -/
def windowsBackupOriginal (e : CommonEnv) (origPath : List Char) (st : WinState) :
    Bool × FS :=
  match st.registry with
  | some cur => (true, (storeOriginalDUID origPath e st.fs cur).2)
  | none => (false, st.fs)

/-- `windows.setDUID(duid, iface)` (source line 815): backup, then
`reg add` the new value (failure is rethrown as a fatal error → `none`),
then the fully-caught IPv6 toggles. -/
def windowsSetDUID (env : WinEnv) (e : CommonEnv) (origPath : List Char)
    (st : WinState) (duid : List Nat) (iface : Option (List Char)) :
    Option WinState :=
  let fs1 := (windowsBackupOriginal e origPath st).2
  if env.regAddFails then none
  else some { fs := fs1, registry := some duid }

/-- `windows.restoreDUID(iface)` (source line 854). -/
def windowsRestoreDUID (env : WinEnv) (origPath : List Char) (st : WinState)
    (iface : Option (List Char)) : Option (RestoreResult × WinState) :=
  match getOriginalDUID origPath st.fs with
  | none => some (RestoreResult.noOriginal, st)
  | some orig =>
    match st.registry with
    | some cur =>
      if cur = orig then some (RestoreResult.notSpoofed, st)
      else if env.regAddFails then none
      else some (RestoreResult.restored, { st with registry := some orig })
    | none =>
      if env.regAddFails then none
      else some (RestoreResult.restored, { st with registry := some orig })

/-- `windows.resetDUID(iface)` (source line 901): `reg delete` inside a
`try` whose `catch` is empty ("May not exist"), then the fully-caught
IPv6 toggles; the file system is never touched. -/
def windowsResetDUID (env : WinEnv) (st : WinState) (iface : Option (List Char)) :
    WinState :=
  if env.regDeleteFails then st else { st with registry := none }

-- Cross-platform controller (source lines 959-999).

/-- The argument of the top-level `setDUID(duid, iface)`: a `Buffer` or
a hex string (`Buffer.isBuffer(duid) ? duid : hexToDuid(duid)`). -/
inductive DuidInput where
  | bytes (b : List Nat)
  | hexText (s : List Char)

/-- The byte normalization applied by the top-level `setDUID`. -/
def duidInputBytes : DuidInput → List Nat
  | DuidInput.bytes b => b
  | DuidInput.hexText s => hexToDuid s

/-- The top-level `setDUID` on a darwin host: normalize the input and
delegate to `macos.setDUID`. -/
def setDUIDDarwin (env : MacEnv) (e : CommonEnv) (fs : FS) (input : DuidInput)
    (iface : Option (List Char)) : Option FS :=
  macosSetDUID env e fs (duidInputBytes input) iface

-- ---------------------------------------------------------------------------
-- Claim theorems.
-- ---------------------------------------------------------------------------

/-- Decoding the *lowercase* hex rendering (the store's `toString('hex')`)
also recovers the bytes. -/
theorem hexPairsDecode_bytesToHexLower (bs : List Nat) (hb : ∀ b ∈ bs, b < 256) :
    hexPairsDecode (bytesToHexLower bs) = bs := by
  induction bs with
  | nil => rfl
  | cons b r ih =>
    have hblt : b < 256 := hb b (by simp)
    have h1 := hexDigitVal?_hexCharLower (b / 16) (Nat.div_lt_of_lt_mul (by omega))
    have h2 := hexDigitVal?_hexCharLower (b % 16) (Nat.mod_lt _ (by omega))
    have ihr := ih (fun x hx => hb x (by simp [hx]))
    simp only [bytesToHexLower, byteToHexLower, List.cons_append, List.nil_append]
    simp [hexPairsDecode, h1, h2, ihr]
    omega

/-- First-call shape of the write-once store: with no record present it
writes the metadata record. -/
theorem storeOriginalDUID_absent (origPath : List Char) (e : CommonEnv) (fs : FS)
    (duid : List Nat) (h : fs origPath = none) :
    storeOriginalDUID origPath e fs duid =
      (true, fsWrite fs origPath
        (Content.structured ⟨bytesToHexLower duid, e.now, e.platformName, e.hostName⟩)) := by
  simp [storeOriginalDUID, h]

/-- Later-call shape of the write-once store: with a record present it
is a pure no-op returning `false`. -/
theorem storeOriginalDUID_existing (origPath : List Char) (e : CommonEnv) (fs : FS)
    (duid : List Nat) (h : (fs origPath).isSome = true) :
    storeOriginalDUID origPath e fs duid = (false, fs) := by
  simp [storeOriginalDUID, h]

/-- C2: write-once store.  With no record present, `storeOriginalDUID A`
writes a record and returns `true`; a subsequent `storeOriginalDUID B`
returns `false`, leaves the file system untouched, and the stored DUID
still reads back as `A`. -/
theorem C2_backupIfAbsent_write_once (origPath : List Char) (e e' : CommonEnv)
    (fs : FS) (A B : List Nat) (habsent : fs origPath = none)
    (hA : ∀ b ∈ A, b < 256) :
    (storeOriginalDUID origPath e fs A).1 = true ∧
    (storeOriginalDUID origPath e' (storeOriginalDUID origPath e fs A).2 B).1 = false ∧
    (storeOriginalDUID origPath e' (storeOriginalDUID origPath e fs A).2 B).2 =
      (storeOriginalDUID origPath e fs A).2 ∧
    getOriginalDUID origPath (storeOriginalDUID origPath e fs A).2 = some A := by
  have h1 := storeOriginalDUID_absent origPath e fs A habsent
  have hfs1 : (storeOriginalDUID origPath e fs A).2 origPath =
      some (Content.structured ⟨bytesToHexLower A, e.now, e.platformName, e.hostName⟩) := by
    rw [h1]
    simp [fsWrite]
  have h2 := storeOriginalDUID_existing origPath e'
    (storeOriginalDUID origPath e fs A).2 B (by rw [hfs1]; rfl)
  refine ⟨by rw [h1], by rw [h2], by rw [h2], ?_⟩
  simp [getOriginalDUID, hfs1, hexPairsDecode_bytesToHexLower A hA]

/-- C2 witness: a concrete run of the two backups. -/
theorem C2_backupIfAbsent_write_once_witness :
    (storeOriginalDUID (chars "/var/lib/spoofy/duid.original")
        ⟨chars "2024-01-01T00:00:00Z", chars "linux", chars "host"⟩
        (fun _ => none) [0, 1, 255]).1 = true ∧
    (storeOriginalDUID (chars "/var/lib/spoofy/duid.original")
        ⟨chars "2024-01-02T00:00:00Z", chars "linux", chars "host"⟩
        (storeOriginalDUID (chars "/var/lib/spoofy/duid.original")
          ⟨chars "2024-01-01T00:00:00Z", chars "linux", chars "host"⟩
          (fun _ => none) [0, 1, 255]).2 [7]).1 = false ∧
    (storeOriginalDUID (chars "/var/lib/spoofy/duid.original")
        ⟨chars "2024-01-02T00:00:00Z", chars "linux", chars "host"⟩
        (storeOriginalDUID (chars "/var/lib/spoofy/duid.original")
          ⟨chars "2024-01-01T00:00:00Z", chars "linux", chars "host"⟩
          (fun _ => none) [0, 1, 255]).2 [7]).2 =
      (storeOriginalDUID (chars "/var/lib/spoofy/duid.original")
        ⟨chars "2024-01-01T00:00:00Z", chars "linux", chars "host"⟩
        (fun _ => none) [0, 1, 255]).2 ∧
    getOriginalDUID (chars "/var/lib/spoofy/duid.original")
      (storeOriginalDUID (chars "/var/lib/spoofy/duid.original")
        ⟨chars "2024-01-01T00:00:00Z", chars "linux", chars "host"⟩
        (fun _ => none) [0, 1, 255]).2 = some [0, 1, 255] :=
  C2_backupIfAbsent_write_once _ _ _ _ _ _ rfl (by decide)

/-- Uppercase hex digit (used to state the canonical-output shape). -/
def upperHexDigit (c : Char) : Bool :=
  (decide (48 ≤ c.toNat) && decide (c.toNat ≤ 57)) ||
    (decide (65 ≤ c.toNat) && decide (c.toNat ≤ 70))

theorem upperHexDigit_upper_hexCharLower :
    ∀ n < 16, upperHexDigit (jsToUpper (hexCharLower n)) = true := by
  decide

/-- The characters of `duidToHex` are uppercase hex digits (no
punctuation). -/
theorem duidToHex_upper (bs : List Nat) (hb : ∀ b ∈ bs, b < 256) :
    (duidToHex bs).all upperHexDigit = true := by
  induction bs with
  | nil => rfl
  | cons b r ih =>
    have hblt : b < 256 := hb b (by simp)
    have h1 := upperHexDigit_upper_hexCharLower (b / 16) (Nat.div_lt_of_lt_mul (by omega))
    have h2 := upperHexDigit_upper_hexCharLower (b % 16) (Nat.mod_lt _ (by omega))
    have ihr := ih (fun x hx => hb x (by simp [hx]))
    simp only [duidToHex] at ihr ⊢
    simp only [bytesToHexLower, byteToHexLower, List.map_cons, List.map_append,
      List.cons_append, List.nil_append]
    simp [List.all_cons, h1, h2, ihr]

instance (c1 c2 : Char) : Decidable (caseEquiv c1 c2) := by
  unfold caseEquiv
  infer_instance

instance instDecForall2CaseEquiv :
    ∀ l1 l2 : List Char, Decidable (List.Forall₂ caseEquiv l1 l2)
  | [], [] => isTrue List.Forall₂.nil
  | [], _ :: _ => isFalse (fun h => by cases h)
  | _ :: _, [] => isFalse (fun h => by cases h)
  | a :: l1, b :: l2 =>
    have := instDecForall2CaseEquiv l1 l2
    decidable_of_iff (caseEquiv a b ∧ List.Forall₂ caseEquiv l1 l2)
      (List.forall₂_cons).symm

/-- C7: hex-text round trip and parse insensitivity.  (1) For every
non-empty byte sequence, `hexToDuid (duidToHex b) = b`; (2) `duidToHex`
produces only unpunctuated uppercase hex digits; (3) two inputs whose
separator-stripped characters agree up to letter case parse to the same
bytes. -/
theorem C7_hex_text_round_trip :
    (∀ b : List Nat, b ≠ [] → (∀ x ∈ b, x < 256) → hexToDuid (duidToHex b) = b) ∧
    (∀ b : List Nat, (∀ x ∈ b, x < 256) → (duidToHex b).all upperHexDigit = true) ∧
    (∀ s1 s2 : List Char, List.Forall₂ caseEquiv (stripSeps s1) (stripSeps s2) →
      hexToDuid s1 = hexToDuid s2) := by
  refine ⟨?_, ?_, ?_⟩
  · intro b _ hb
    unfold hexToDuid
    rw [stripSeps_duidToHex b hb]
    exact hexPairsDecode_duidToHex b hb
  · intro b hb
    exact duidToHex_upper b hb
  · intro s1 s2 h
    exact hexPairsDecode_congr _ _ h

/-- C7 witness: a concrete round trip, digit check, and the
colon/space/case-insensitive parse from the spec's own example. -/
theorem C7_hex_text_round_trip_witness :
    hexToDuid (duidToHex [0, 3, 0, 1, 170, 187]) = [0, 3, 0, 1, 170, 187] ∧
    (duidToHex [0, 3, 0, 1, 170, 187]).all upperHexDigit = true ∧
    hexToDuid (chars "00:03:00:01:AA:BB:CC:DD:EE:FF") =
      hexToDuid (chars "0003000 1aabbccddeeff") :=
  ⟨C7_hex_text_round_trip.1 _ (by decide) (by decide),
    C7_hex_text_round_trip.2.1 _ (by decide),
    C7_hex_text_round_trip.2.2 _ _ (by decide)⟩

/-- C8: every successfully generated DUID has the type-determined
length — LLT 14, LL 10, UUID 18, and EN `6 +` the length of its
identifier (the hex-decoded colon-stripped MAC text).  The MAC string is
universally quantified, so this covers both an explicit MAC and the
generated random one. -/
theorem C8_generated_lengths :
    (∀ (mac : List Char) (time32 : Nat) (urand d : List Nat),
      generateDUID 1 mac time32 urand = some d → d.length = 14) ∧
    (∀ (mac : List Char) (time32 : Nat) (urand d : List Nat),
      generateDUID 3 mac time32 urand = some d → d.length = 10) ∧
    (∀ (mac : List Char) (time32 : Nat) (urand d : List Nat),
      generateDUID 4 mac time32 urand = some d → d.length = 18) ∧
    (∀ (mac : List Char) (time32 : Nat) (urand d : List Nat),
      generateDUID 2 mac time32 urand = some d →
        d.length = 6 + (hexPairsDecode (mac.filter (fun c => !(c == ':')))).length) := by
  refine ⟨?_, ?_, ?_, ?_⟩
  · intro mac time32 urand d h
    simp only [generateDUID] at h
    split_ifs at h
    have := writeBytesAt_length _ _ _ _ h
    simpa [be16, be32] using this
  · intro mac time32 urand d h
    simp only [generateDUID] at h
    have := writeBytesAt_length _ _ _ _ h
    simpa [be16] using this
  · intro mac time32 urand d h
    simp only [generateDUID] at h
    cases hw : writeBytesAt (be16 4 ++ List.replicate 16 0) 2 (urand.map some) with
    | none => rw [hw] at h; simp at h
    | some b0 =>
      rw [hw] at h
      have hb0 : b0.length = 18 := by
        have := writeBytesAt_length _ _ _ _ hw
        simpa [be16] using this
      simp only [Option.map_some'] at h
      have hd := Option.some.inj h
      rw [← hd]
      simp [hb0]
  · intro mac time32 urand d h
    simp only [generateDUID] at h
    have hd := Option.some.inj h
    rw [← hd]
    simp [be16, be32]
    omega

/-- C8 witness: concrete generations of all four types. -/
theorem C8_generated_lengths_witness :
    ([0, 1, 0, 1, 0, 0, 0, 0, 170, 187, 204, 221, 238, 255] : List Nat).length = 14 ∧
    ([0, 3, 0, 1, 170, 187, 204, 221, 238, 255] : List Nat).length = 10 ∧
    ([0, 4, 0, 0, 0, 0, 0, 0, 64, 0, 128, 0, 0, 0, 0, 0, 0, 0] : List Nat).length = 18 ∧
    ([0, 2, 0, 0, 0, 9, 170, 187, 204, 221, 238, 255] : List Nat).length =
      6 + (hexPairsDecode ((chars "aa:bb:cc:dd:ee:ff").filter (fun c => !(c == ':')))).length :=
  ⟨C8_generated_lengths.1 (chars "aa:bb:cc:dd:ee:ff") 0 (List.replicate 16 0) _ (by decide),
    C8_generated_lengths.2.1 (chars "aa:bb:cc:dd:ee:ff") 0 (List.replicate 16 0) _ (by decide),
    C8_generated_lengths.2.2.1 (chars "aa:bb:cc:dd:ee:ff") 0 (List.replicate 16 0) _ (by decide),
    C8_generated_lengths.2.2.2 (chars "aa:bb:cc:dd:ee:ff") 0 (List.replicate 16 0) _ (by decide)⟩

/-- C9: every UUID DUID produced by the generator has the RFC 4122
version-4 and variant bits forced — `byte8 & 0xF0 = 0x40` and
`byte10 & 0xC0 = 0x80` — for every outcome of the random byte draw. -/
theorem C9_uuid_version_variant (mac : List Char) (time32 : Nat) (urand d : List Nat)
    (h : generateDUID 4 mac time32 urand = some d) :
    d.getD 8 0 &&& 240 = 64 ∧ d.getD 10 0 &&& 192 = 128 := by
  simp only [generateDUID] at h
  cases hw : writeBytesAt (be16 4 ++ List.replicate 16 0) 2 (urand.map some) with
  | none => rw [hw] at h; simp at h
  | some b0 =>
    rw [hw] at h
    simp only [Option.map_some'] at h
    have hd := (Option.some.inj h).symm
    have hb0len : b0.length = 18 := by
      have := writeBytesAt_length _ _ _ _ hw
      simpa [be16] using this
    have hb0lt : ∀ x ∈ b0, x < 256 :=
      writeBytesAt_bound _ _ _ _ (by decide) hw
    have hx8 : b0.getD 8 0 < 256 := hb0lt _ (getD_mem b0 8 (by omega))
    have hx10 : b0.getD 10 0 < 256 := hb0lt _ (getD_mem b0 10 (by omega))
    have hset10 : (b0.set 8 (b0.getD 8 0 &&& 15 ||| 64)).getD 10 0 = b0.getD 10 0 :=
      getD_set_other b0 8 10 _ (by omega)
    constructor
    · rw [hd, getD_set_other _ 10 8 _ (by omega),
        getD_set_self b0 8 _ (by omega)]
      exact uuidVersionMask _ hx8
    · rw [hd, getD_set_self _ 10 _ (by simp [hb0len]), hset10]
      exact uuidVariantMask _ hx10

/-- C9 witness: a concrete UUID generation (all-zero random draw). -/
theorem C9_uuid_version_variant_witness :
    ([0, 4, 0, 0, 0, 0, 0, 0, 64, 0, 128, 0, 0, 0, 0, 0, 0, 0] : List Nat).getD 8 0 &&& 240 = 64 ∧
    ([0, 4, 0, 0, 0, 0, 0, 0, 64, 0, 128, 0, 0, 0, 0, 0, 0, 0] : List Nat).getD 10 0 &&& 192 = 128 :=
  C9_uuid_version_variant (chars "aa:bb:cc:dd:ee:ff") 0 (List.replicate 16 0) _ (by decide)

/-- Parsing any 18-byte buffer whose first two bytes read as type 4
reports type 4. -/
theorem parseDUID_uuid_type (d : List Nat) (hlen : d.length = 18)
    (ht : readUInt16BE d 0 = 4) : (parseDUID d).type = some 4 := by
  simp only [parseDUID, hlen, ht]
  norm_num

/-- C6 counterexample: the claim `decode(encode(t, m)).lladdr == m` fails
for the valid uppercase MAC `AA:BB:CC:DD:EE:FF` at type 3 — the decoder
renders the link-layer address in lowercase. -/
theorem C6_roundtrip_counterexample :
    generateDUID 3 (chars "AA:BB:CC:DD:EE:FF") 0 [] =
      some [0, 3, 0, 1, 170, 187, 204, 221, 238, 255] ∧
    (parseDUID [0, 3, 0, 1, 170, 187, 204, 221, 238, 255]).lladdr =
      some (chars "aa:bb:cc:dd:ee:ff") ∧
    (parseDUID [0, 3, 0, 1, 170, 187, 204, 221, 238, 255]).lladdr ≠
      some (chars "AA:BB:CC:DD:EE:FF") := by
  decide

/-- C6 (amended): for a MAC text whose six fields parse to bytes `bs`,
`decode(encode(t, m)).lladdr` is the canonical *lowercase* colon-hex of
`bs` for t ∈ {1,3} (so it equals `m` exactly when `m` is already
lowercase two-digit colon-hex), and `decode(encode(t)).type = t` for
every t ∈ {1,2,3,4} and every random outcome. -/
theorem C6_roundtrip_amended (mac : List Char) (bs : List Nat) (time32 : Nat)
    (urand : List Nat) (hm : macFields mac = bs.map some) (hlen : bs.length = 6)
    (hb : ∀ v ∈ bs, v < 256) (ht : time32 < 4294967296)
    (hu : urand.length = 16) (hub : ∀ v ∈ urand, v < 256) :
    (∃ d, generateDUID 1 mac time32 urand = some d ∧
      (parseDUID d).type = some 1 ∧ (parseDUID d).lladdr = some (colonHexLower bs)) ∧
    (∃ d, generateDUID 3 mac time32 urand = some d ∧
      (parseDUID d).type = some 3 ∧ (parseDUID d).lladdr = some (colonHexLower bs)) ∧
    (∃ d, generateDUID 2 mac time32 urand = some d ∧ (parseDUID d).type = some 2) ∧
    (∃ d, generateDUID 4 mac time32 urand = some d ∧ (parseDUID d).type = some 4) := by
  refine ⟨⟨_, generateDUID_llt_eq mac bs time32 urand hm hlen hb ht, ?_, ?_⟩,
    ⟨_, generateDUID_ll_eq mac bs time32 urand hm hlen hb, ?_, ?_⟩,
    ⟨_, generateDUID_en_eq mac time32 urand, ?_⟩,
    ⟨_, generateDUID_uuid_eq mac time32 urand hu hub, ?_⟩⟩
  · have hform : [0, 1, 0, 1] ++ be32 time32 ++ bs =
        0 :: 1 :: 0 :: 1 :: (time32 / 16777216 % 256) :: (time32 / 65536 % 256) ::
          (time32 / 256 % 256) :: (time32 % 256) :: bs := by
      simp [be32]
    rw [hform]
    exact (parseDUID_llt_fields _ _ _ _ bs hlen).1
  · have hform : [0, 1, 0, 1] ++ be32 time32 ++ bs =
        0 :: 1 :: 0 :: 1 :: (time32 / 16777216 % 256) :: (time32 / 65536 % 256) ::
          (time32 / 256 % 256) :: (time32 % 256) :: bs := by
      simp [be32]
    rw [hform]
    exact (parseDUID_llt_fields _ _ _ _ bs hlen).2
  · have hform : ([0, 3, 0, 1] : List Nat) ++ bs = 0 :: 3 :: 0 :: 1 :: bs := by simp
    rw [hform]
    exact (parseDUID_ll_fields bs hlen).1
  · have hform : ([0, 3, 0, 1] : List Nat) ++ bs = 0 :: 3 :: 0 :: 1 :: bs := by simp
    rw [hform]
    exact (parseDUID_ll_fields bs hlen).2
  · have hform : ([0, 2, 0, 0, 0, 9] : List Nat) ++
        hexPairsDecode (mac.filter (fun c => !(c == ':'))) =
        0 :: 2 :: 0 :: 0 :: 0 :: 9 :: hexPairsDecode (mac.filter (fun c => !(c == ':'))) := by
      simp
    rw [hform]
    exact parseDUID_en_type _
  · refine parseDUID_uuid_type _ (by simp [hu]) ?_
    unfold readUInt16BE
    rw [getD_set_other _ 10 0 _ (by omega), getD_set_other _ 8 0 _ (by omega),
      getD_set_other _ 10 (0 + 1) _ (by omega), getD_set_other _ 8 (0 + 1) _ (by omega)]
    rfl

/-- C6 witness: the amended claim at the lowercase MAC
`aa:bb:cc:dd:ee:ff`, where the round trip is exact. -/
theorem C6_roundtrip_amended_witness :
    (∃ d, generateDUID 1 (chars "aa:bb:cc:dd:ee:ff") 0 (List.replicate 16 0) = some d ∧
      (parseDUID d).type = some 1 ∧
      (parseDUID d).lladdr = some (colonHexLower [170, 187, 204, 221, 238, 255])) ∧
    (∃ d, generateDUID 3 (chars "aa:bb:cc:dd:ee:ff") 0 (List.replicate 16 0) = some d ∧
      (parseDUID d).type = some 3 ∧
      (parseDUID d).lladdr = some (colonHexLower [170, 187, 204, 221, 238, 255])) ∧
    (∃ d, generateDUID 2 (chars "aa:bb:cc:dd:ee:ff") 0 (List.replicate 16 0) = some d ∧
      (parseDUID d).type = some 2) ∧
    (∃ d, generateDUID 4 (chars "aa:bb:cc:dd:ee:ff") 0 (List.replicate 16 0) = some d ∧
      (parseDUID d).type = some 4) :=
  C6_roundtrip_amended (chars "aa:bb:cc:dd:ee:ff") [170, 187, 204, 221, 238, 255]
    0 (List.replicate 16 0) (by decide) (by decide) (by decide) (by decide)
    (by decide) (by decide)

instance instDecBlockedTail : ∀ l, Decidable (blockedTail l)
  | [] => by unfold blockedTail; infer_instance
  | [_] => by unfold blockedTail; infer_instance
  | _ :: _ :: _ => by unfold blockedTail; infer_instance

/-- C10: `hexToDuid` is total (it is a plain function into byte lists —
`Buffer.from(string, 'hex')` never throws on string input) and silently
truncating: whenever the separator-stripped input splits as a full run
of hex-digit pairs followed by a tail at which pair decoding stops (odd
leftover or non-hex character), the result is exactly the bytes of the
valid run, the tail silently dropped.  Consequently the top-level
`setDUID` on a malformed hex string installs a truncated DUID: with
`'00:03:00:0Z:11'` the active DUID becomes the 3-byte `00 03 00`. -/
theorem C10_hexToDuid_lossy :
    (∀ s good tail : List Char, stripSeps s = good ++ tail → goodHexRun good →
      blockedTail tail →
      hexToDuid s = hexPairsDecode good ∧ 2 * (hexToDuid s).length = good.length) ∧
    (setDUIDDarwin ⟨[], fun _ => false, fun _ => false, fun _ => none⟩
        ⟨chars "t", chars "darwin", chars "h"⟩ (fun _ => none)
        (DuidInput.hexText (chars "00:03:00:0Z:11")) none).map
          (fun f => f macDuidPath) = some (some (Content.rawBytes [0, 3, 0])) := by
  constructor
  · intro s good tail hsplit hg ht
    have h := hexPairsDecode_append good tail hg ht
    unfold hexToDuid
    rw [hsplit]
    exact ⟨h.1, by rw [h.1]; exact h.2⟩
  · decide

/-- C10 witness: the truncation characterization on the malformed input
itself (stripped form `0003000Z11` = valid run `000300` + blocked tail
`0Z11`). -/
theorem C10_hexToDuid_lossy_witness :
    hexToDuid (chars "00:03:00:0Z:11") = hexPairsDecode (chars "000300") ∧
    2 * (hexToDuid (chars "00:03:00:0Z:11")).length = (chars "000300").length :=
  C10_hexToDuid_lossy.1 (chars "00:03:00:0Z:11") (chars "000300") (chars "0Z11")
    (by decide) (by decide) (by decide)

/-- C1: the claim is violated by the macOS implementation.  On a host
whose active DUID is `00 01 02` and with no record stored, one
`setDUID` call (no interface) completes successfully, but afterwards the
Original-Value Store holds *nothing*: `backupOriginal()` does write
`/var/db/dhcpclient/DUID.original` first (third conjunct), but the next
step `rm -f /var/db/dhcpclient/DUID*` matches that very file with its
glob and deletes it (first conjunct), even as the new DUID is installed
(second conjunct). -/
theorem C1_macos_setDUID_deletes_backup :
    (macosSetDUID ⟨[], fun _ => false, fun _ => false, fun _ => none⟩
        ⟨chars "t", chars "darwin", chars "h"⟩
        (fun p => if p = macDuidPath then some (Content.rawBytes [0, 1, 2]) else none)
        [0, 3, 0, 1, 170, 187, 204, 221, 238, 255] none).map
          (fun f => getOriginalDUID macOriginalPath f) = some none ∧
    (macosSetDUID ⟨[], fun _ => false, fun _ => false, fun _ => none⟩
        ⟨chars "t", chars "darwin", chars "h"⟩
        (fun p => if p = macDuidPath then some (Content.rawBytes [0, 1, 2]) else none)
        [0, 3, 0, 1, 170, 187, 204, 221, 238, 255] none).map
          (fun f => f macDuidPath) =
      some (some (Content.rawBytes [0, 3, 0, 1, 170, 187, 204, 221, 238, 255])) ∧
    (macosBackupOriginal ⟨[], fun _ => false, fun _ => false, fun _ => none⟩
        ⟨chars "t", chars "darwin", chars "h"⟩
        (fun p => if p = macDuidPath then some (Content.rawBytes [0, 1, 2]) else none)).2
          macOriginalPath =
      some (Content.structured
        ⟨chars "000102", chars "t", chars "darwin", chars "h"⟩) := by
  refine ⟨?_, ?_, ?_⟩ <;> decide

/-- C3: `restoreDUID` returns exactly one of three results, shown for
the macOS and Windows adapters.  With no stored original the result is
`NoOriginal` and the state is returned untouched (no OS write); with the
stored original byte-equal to the current DUID the result is
`NotSpoofed`, again with the state untouched; otherwise (with the
external mechanisms of the write path succeeding) the result is
`Restored` and the original bytes are written as the active DUID. -/
theorem C3_restore_three_outcomes :
    (∀ (env : MacEnv) (fs : FS) (iface : Option (List Char)),
      getOriginalDUID macOriginalPath fs = none →
      macosRestoreDUID env fs iface = some (RestoreResult.noOriginal, fs)) ∧
    (∀ (env : MacEnv) (fs : FS) (iface : Option (List Char)) (orig : List Nat),
      getOriginalDUID macOriginalPath fs = some orig →
      macosGetCurrentDUID env fs = some orig →
      macosRestoreDUID env fs iface = some (RestoreResult.notSpoofed, fs)) ∧
    (∀ (env : MacEnv) (fs : FS) (iface : Option (List Char)) (orig : List Nat),
      getOriginalDUID macOriginalPath fs = some orig →
      macosGetCurrentDUID env fs ≠ some orig →
      macosTryV6 env.v6offFails env.hardwarePort iface = some () →
      macosTryV6 env.v6autoFails env.hardwarePort iface = some () →
      ∃ fsOut, macosRestoreDUID env fs iface = some (RestoreResult.restored, fsOut) ∧
        fsOut macDuidPath = some (Content.rawBytes orig)) ∧
    (∀ (env : WinEnv) (origPath : List Char) (st : WinState) (iface : Option (List Char)),
      getOriginalDUID origPath st.fs = none →
      windowsRestoreDUID env origPath st iface = some (RestoreResult.noOriginal, st)) ∧
    (∀ (env : WinEnv) (origPath : List Char) (st : WinState) (iface : Option (List Char))
        (orig : List Nat),
      getOriginalDUID origPath st.fs = some orig → st.registry = some orig →
      windowsRestoreDUID env origPath st iface = some (RestoreResult.notSpoofed, st)) ∧
    (∀ (env : WinEnv) (origPath : List Char) (st : WinState) (iface : Option (List Char))
        (orig : List Nat),
      getOriginalDUID origPath st.fs = some orig → st.registry ≠ some orig →
      env.regAddFails = false →
      windowsRestoreDUID env origPath st iface =
        some (RestoreResult.restored, { st with registry := some orig })) := by
  refine ⟨?_, ?_, ?_, ?_, ?_, ?_⟩
  · intro env fs iface h
    simp [macosRestoreDUID, h]
  · intro env fs iface orig h hcur
    simp [macosRestoreDUID, h, hcur]
  · intro env fs iface orig h hcur hoff hauto
    refine ⟨fsWrite (rmUnder (fsRemove fs macDuidPath) macLeasesDir) macDuidPath
      (Content.rawBytes orig), ?_, by simp [fsWrite]⟩
    have hwrite : macosRestoreWrite env fs orig iface =
        some (RestoreResult.restored,
          fsWrite (rmUnder (fsRemove fs macDuidPath) macLeasesDir) macDuidPath
            (Content.rawBytes orig)) := by
      simp [macosRestoreWrite, hoff, hauto]
    cases hc : macosGetCurrentDUID env fs with
    | none => simp [macosRestoreDUID, h, hc, hwrite]
    | some cur =>
      have hne : cur ≠ orig := by
        intro he
        exact hcur (by rw [hc, he])
      simp [macosRestoreDUID, h, hc, hne, hwrite]
  · intro env origPath st iface h
    simp [windowsRestoreDUID, h]
  · intro env origPath st iface orig h hr
    simp [windowsRestoreDUID, h, hr]
  · intro env origPath st iface orig h hr hreg
    cases hc : st.registry with
    | none => simp [windowsRestoreDUID, h, hc, hreg]
    | some cur =>
      have hne : cur ≠ orig := by
        intro he
        exact hr (by rw [hc, he])
      simp [windowsRestoreDUID, h, hc, hne, hreg]

-- Concrete fixtures for the witnesses.

/-- An empty file system. -/
def emptyFS : FS := fun _ => none

/-- A macOS environment in which every external invocation succeeds and
the `defaults read` fallback prints nothing. -/
def macEnvQuiet : MacEnv := ⟨[], fun _ => false, fun _ => false, fun _ => none⟩

/-- Fixed ambient values for the metadata record. -/
def envT : CommonEnv := ⟨chars "t", chars "darwin", chars "h"⟩

/-- A file system holding the same DUID `01 02` both as the active
value and in the store (legacy raw format). -/
def fsBothSame : FS := fun p =>
  if p = macDuidPath then some (Content.rawBytes [1, 2])
  else if p = macOriginalPath then some (Content.rawBytes [1, 2])
  else none

/-- A file system holding only a stored original `01 02` (no active
DUID). -/
def fsOnlyOriginal : FS := fun p =>
  if p = macOriginalPath then some (Content.rawBytes [1, 2]) else none

/-- The Windows store path used in the witnesses. -/
def winOrigPath : List Char := chars "C:\\ProgramData\\spoofy\\duid.original"

/-- A Windows environment where every external invocation succeeds. -/
def winEnvOk : WinEnv := ⟨false, false, false, false⟩

/-- A Windows state with a stored original `01 02`, once with the
registry matching it and once spoofed to `09`. -/
def winFsOriginal : FS := fun p =>
  if p = winOrigPath then some (Content.rawBytes [1, 2]) else none

/-- C3 witness: concrete runs of all six branches. -/
theorem C3_restore_three_outcomes_witness :
    macosRestoreDUID macEnvQuiet emptyFS none =
      some (RestoreResult.noOriginal, emptyFS) ∧
    macosRestoreDUID macEnvQuiet fsBothSame none =
      some (RestoreResult.notSpoofed, fsBothSame) ∧
    (∃ fsOut, macosRestoreDUID macEnvQuiet fsOnlyOriginal none =
      some (RestoreResult.restored, fsOut) ∧
      fsOut macDuidPath = some (Content.rawBytes [1, 2])) ∧
    windowsRestoreDUID winEnvOk winOrigPath ⟨emptyFS, none⟩ none =
      some (RestoreResult.noOriginal, (⟨emptyFS, none⟩ : WinState)) ∧
    windowsRestoreDUID winEnvOk winOrigPath ⟨winFsOriginal, some [1, 2]⟩ none =
      some (RestoreResult.notSpoofed, (⟨winFsOriginal, some [1, 2]⟩ : WinState)) ∧
    windowsRestoreDUID winEnvOk winOrigPath ⟨winFsOriginal, some [9]⟩ none =
      some (RestoreResult.restored,
        { (⟨winFsOriginal, some [9]⟩ : WinState) with registry := some [1, 2] }) :=
  ⟨C3_restore_three_outcomes.1 macEnvQuiet emptyFS none rfl,
    C3_restore_three_outcomes.2.1 macEnvQuiet fsBothSame none [1, 2]
      (by decide) (by decide),
    C3_restore_three_outcomes.2.2.1 macEnvQuiet fsOnlyOriginal none [1, 2]
      (by decide) (by decide) rfl rfl,
    C3_restore_three_outcomes.2.2.2.1 winEnvOk winOrigPath ⟨emptyFS, none⟩ none rfl,
    C3_restore_three_outcomes.2.2.2.2.1 winEnvOk winOrigPath
      ⟨winFsOriginal, some [1, 2]⟩ none [1, 2] (by decide) rfl,
    C3_restore_three_outcomes.2.2.2.2.2 winEnvOk winOrigPath
      ⟨winFsOriginal, some [9]⟩ none [1, 2] (by decide) (by decide) rfl⟩

/-- C4: `resetDUID` never touches the Original-Value Store's file:
the macOS reset removes only the exact active-DUID path, the Linux
reset touches only `…/00-duid.conf`, `…/<iface>.network` and
`dhclient6.conf` (none of which can be the store path, which always
ends in `duid.original`), and the Windows reset only deletes a registry
value, leaving the file system untouched — in every case, with or
without an interface argument. -/
theorem C4_reset_preserves_store :
    (∀ (env : MacEnv) (fs : FS) (iface : Option (List Char)),
      macosResetDUID env fs iface macOriginalPath = fs macOriginalPath) ∧
    (∀ (client : DHCPClient) (fs : FS) (iface : Option (List Char))
        (origPath : List Char), chars "duid.original" <:+ origPath →
      linuxResetDUID client fs iface origPath = fs origPath) ∧
    (∀ (env : WinEnv) (st : WinState) (iface : Option (List Char)),
      (windowsResetDUID env st iface).fs = st.fs) := by
  refine ⟨?_, ?_, ?_⟩
  · intro env fs iface
    unfold macosResetDUID fsRemove
    rw [if_neg (by decide)]
  · intro client fs iface origPath hsuf
    have hlast : origPath.getLast? = some 'l' := by
      obtain ⟨t, rfl⟩ := hsuf
      rw [List.getLast?_append_of_ne_nil _ (by decide)]
      decide
    cases client with
    | systemd =>
      have h1 : origPath ≠ systemdConfPath := by
        intro he
        rw [he] at hlast
        exact absurd hlast (by decide)
      simp only [linuxResetDUID]
      cases iface with
      | none => simp [fsRemove, h1]
      | some i =>
        have h2 : origPath ≠ systemdNetworkPath i := by
          intro he
          rw [he] at hlast
          unfold systemdNetworkPath at hlast
          rw [List.getLast?_append_of_ne_nil _ (by decide)] at hlast
          exact absurd hlast (by decide)
        simp [fsRemove, h1, h2]
    | dhclient =>
      have h3 : origPath ≠ dhclientConfPath := by
        intro he
        rw [he] at hlast
        exact absurd hlast (by decide)
      simp only [linuxResetDUID]
      cases hc : fs dhclientConfPath with
      | none => rfl
      | some c => simp [fsWrite, h3]
    | networkmanager => rfl
    | unknownClient => rfl
  · intro env st iface
    unfold windowsResetDUID
    split_ifs <;> rfl

/-- C4 witness: concrete resets on all three platforms (with and
without an interface). -/
theorem C4_reset_preserves_store_witness :
    macosResetDUID macEnvQuiet fsBothSame (some (chars "en0")) macOriginalPath =
      fsBothSame macOriginalPath ∧
    linuxResetDUID DHCPClient.systemd emptyFS (some (chars "eth0"))
      (chars "/var/lib/spoofy/duid.original") =
      emptyFS (chars "/var/lib/spoofy/duid.original") ∧
    (windowsResetDUID winEnvOk ⟨winFsOriginal, some [1, 2]⟩ none).fs =
      (⟨winFsOriginal, some [1, 2]⟩ : WinState).fs :=
  ⟨C4_reset_preserves_store.1 macEnvQuiet fsBothSame (some (chars "en0")),
    C4_reset_preserves_store.2.1 DHCPClient.systemd emptyFS (some (chars "eth0"))
      (chars "/var/lib/spoofy/duid.original") (by decide),
    C4_reset_preserves_store.2.2 winEnvOk ⟨winFsOriginal, some [1, 2]⟩ none⟩

/-- C5 counterexample: on macOS the IPv6-disable step is *not* fully
best-effort.  In an environment where `networksetup -setv6off` fails for
every name and the hardware-port lookup resolves `en0` to `Wi-Fi`, the
`catch` block's second `networksetup` call (made outside any `try`)
throws, the whole `setDUID` call aborts (`none`), and the new DUID is
never written — contradicting "failure … is caught and does not abort
the overall operation, so the new DUID is still written and the call
still returns success". -/
theorem C5_best_effort_counterexample :
    macosSetDUID ⟨[], fun _ => true, fun _ => false, fun _ => some (chars "Wi-Fi")⟩
      envT emptyFS [0, 2] (some (chars "en0")) = none := rfl

/-- C5 (amended): a failure of the *direct* IPv6 toggle command is
caught.  On Windows every toggle failure is swallowed by the nested
`try`/`catch`, so (whenever the required `reg add` succeeds) the new
DUID is written and the call succeeds regardless of toggle outcomes
(first conjunct).  On macOS the `catch` retries on the resolved
hardware port outside any `try`: the call completes with the new DUID
written and success returned whenever, for each of the disable and
re-enable steps, the direct command succeeds, or no hardware port
resolves, or the retry succeeds (second conjunct); if a retry fails —
at either step — the error propagates and the call does not return
success (third conjunct).  For the disable step that propagation
happens before the new DUID is written (the counterexample); for the
re-enable step the write at source line 308 has already happened when
lines 309-318 throw. -/
theorem C5_best_effort_amended :
    (∀ (env : WinEnv) (e : CommonEnv) (origPath : List Char) (st : WinState)
        (duid : List Nat) (iface : Option (List Char)), env.regAddFails = false →
      ∃ stOut, windowsSetDUID env e origPath st duid iface = some stOut ∧
        stOut.registry = some duid) ∧
    (∀ (env : MacEnv) (e : CommonEnv) (fs : FS) (duid : List Nat)
        (iface : Option (List Char)),
      macosTryV6 env.v6offFails env.hardwarePort iface = some () →
      macosTryV6 env.v6autoFails env.hardwarePort iface = some () →
      ∃ fsOut, macosSetDUID env e fs duid iface = some fsOut ∧
        fsOut macDuidPath = some (Content.rawBytes duid)) ∧
    (∀ (env : MacEnv) (e : CommonEnv) (fs : FS) (duid : List Nat)
        (iface : Option (List Char)),
      macosTryV6 env.v6offFails env.hardwarePort iface = none ∨
        macosTryV6 env.v6autoFails env.hardwarePort iface = none →
      macosSetDUID env e fs duid iface = none) := by
  refine ⟨?_, ?_, ?_⟩
  · intro env e origPath st duid iface hreg
    refine ⟨⟨(windowsBackupOriginal e origPath st).2, some duid⟩, ?_, rfl⟩
    simp [windowsSetDUID, hreg]
  · intro env e fs duid iface hoff hauto
    refine ⟨fsWrite (rmUnder (rmGlobStar (macosBackupOriginal env e fs).2 macDuidPath)
      macLeasesDir) macDuidPath (Content.rawBytes duid), ?_, by simp [fsWrite]⟩
    simp only [macosSetDUID, hoff, hauto]
  · intro env e fs duid iface h
    rcases h with h | h
    · simp only [macosSetDUID, h]
    · cases hoff : macosTryV6 env.v6offFails env.hardwarePort iface with
      | none => simp only [macosSetDUID, hoff]
      | some u =>
        cases u
        simp only [macosSetDUID, hoff, h]

/-- C5 witness: the amended conjuncts at concrete inputs.  First two:
environments whose *direct* IPv6 toggle fails — on Windows `netsh` and
the PowerShell fallback both fail, on macOS `networksetup -setv6off`
fails but no hardware port resolves — and the new DUID `00 02` is still
installed.  Third: the *re-enable* step's hardware-port retry fails and
the call does not return success. -/
theorem C5_best_effort_amended_witness :
    (∃ stOut, windowsSetDUID ⟨false, false, true, true⟩ envT winOrigPath
        ⟨emptyFS, none⟩ [0, 2] (some (chars "Ethernet")) = some stOut ∧
      stOut.registry = some [0, 2]) ∧
    (∃ fsOut, macosSetDUID ⟨[], fun _ => true, fun _ => false, fun _ => none⟩
        envT emptyFS [0, 2] (some (chars "en0")) = some fsOut ∧
      fsOut macDuidPath = some (Content.rawBytes [0, 2])) ∧
    macosSetDUID ⟨[], fun _ => false, fun _ => true, fun _ => some (chars "Wi-Fi")⟩
      envT emptyFS [0, 2] (some (chars "en0")) = none :=
  ⟨C5_best_effort_amended.1 ⟨false, false, true, true⟩ envT winOrigPath
      ⟨emptyFS, none⟩ [0, 2] (some (chars "Ethernet")) rfl,
    C5_best_effort_amended.2.1 ⟨[], fun _ => true, fun _ => false, fun _ => none⟩
      envT emptyFS [0, 2] (some (chars "en0")) rfl rfl,
    C5_best_effort_amended.2.2 ⟨[], fun _ => false, fun _ => true, fun _ => some (chars "Wi-Fi")⟩
      envT emptyFS [0, 2] (some (chars "en0")) (Or.inr rfl)⟩
